import Mathlib

/-!
Verification of the Streaming Query Session core of the rag-next-fastapi
frontend against its natural-language specification.

The embedding models, faithfully to the TypeScript source:
* the snippet highlight parser `renderHighlightedSnippet`
  (components/MainNavigation.tsx / HighlightedText);
* the streaming RAG message handler `handleMessage`, the stream teardown
  `closeStream`, and `handleRagQuery` (the search page component);
* the search submission and pagination handlers `handleSearch`,
  `handlePaginatedSearch`, `handlePageChange` together with the request body
  construction of the `search` API wrapper (lib/search.ts).

Strings are modelled as `List Char`; JavaScript `String.prototype.indexOf`
and the two-argument `String.prototype.substring` (which clamps its
arguments and swaps them when start exceeds end) are modelled explicitly.
-/

namespace Highlight

/-- One rendered span of a snippet: the `{ text, highlighted }` objects the
parser pushes onto `parts`. -/
structure Segment where
  text : List Char
  highlighted : Bool
deriving DecidableEq, Repr

/-- The start-marker literal `<mark>` (6 characters). -/
def markOpen : List Char := "<mark>".data

/-- The end-marker literal `</mark>` (7 characters). -/
def markClose : List Char := "</mark>".data

/-- JavaScript `s.indexOf(pat)`: index of the first occurrence of `pat` in
`s`, or `none` where JavaScript returns `-1`. -/
def strIndexOf? : List Char → List Char → Option Nat
  | [], pat => if pat.isPrefixOf ([] : List Char) then some 0 else none
  | c :: t, pat =>
      if pat.isPrefixOf (c :: t) then some 0
      else (strIndexOf? t pat).map (· + 1)

/-- JavaScript two-argument `s.substring(a, b)`: both arguments are clamped
to the string bounds and swapped when the first exceeds the second. -/
def jsSubstring (s : List Char) (a b : Nat) : List Char :=
  (s.take (max a b)).drop (min a b)

/-- The `while` loop of `renderHighlightedSnippet` plus the trailing
`if (currentText)` push, written with a fuel argument for structural
recursion; every iteration consumes the matched end-marker, so fuel equal
to the length of the text is always enough (`renderLoopCongr`). -/
def renderLoop : Nat → List Char → List Segment
  | 0, current => if current = [] then [] else [⟨current, false⟩]
  | fuel + 1, current =>
      match strIndexOf? current markOpen, strIndexOf? current markClose with
      | some ms, some me =>
          (if 0 < ms then [⟨current.take ms, false⟩] else []) ++
            ⟨jsSubstring current (ms + 6) me, true⟩ ::
              renderLoop fuel (current.drop (me + 7))
      | _, _ => if current = [] then [] else [⟨current, false⟩]

/-- The snippet highlight parser `renderHighlightedSnippet` of
`HighlightedText` (MainNavigation.tsx): splits a snippet on matched
`<mark>` / `</mark>` pairs into plain and highlighted segments. -/
def renderHighlightedSnippet (snippet : List Char) : List Segment :=
  renderLoop snippet.length snippet

/-- Concatenation of the `.text` fields of a segment list, in order. -/
def segmentsText (segs : List Segment) : List Char :=
  (segs.map Segment.text).flatten

theorem segmentsText_nil : segmentsText [] = [] := rfl

theorem segmentsText_cons (a : Segment) (l : List Segment) :
    segmentsText (a :: l) = a.text ++ segmentsText l := by
  simp [segmentsText]

theorem segmentsText_append (a b : List Segment) :
    segmentsText (a ++ b) = segmentsText a ++ segmentsText b := by
  simp [segmentsText]

theorem strIndexOf_some_occ {s pat : List Char} {i : Nat}
    (h : strIndexOf? s pat = some i) : pat <+: s.drop i := by
  induction s generalizing i with
  | nil =>
      simp only [strIndexOf?] at h
      split at h
      · rename_i hp
        cases h
        rw [ List.isPrefixOf_iff_prefix] at hp
        simpa using hp
      · cases h
  | cons c t ih =>
      simp only [strIndexOf?] at h
      split at h
      · rename_i hp
        cases h
        rw [ List.isPrefixOf_iff_prefix] at hp
        simpa using hp
      · rcases ho : strIndexOf? t pat with _ | j
        · rw [ho] at h; cases h
        · rw [ho] at h
          have h' : some (j + 1) = some i := h
          cases h'
          simpa using ih ho

theorem strIndexOf_some_least {s pat : List Char} {i : Nat}
    (h : strIndexOf? s pat = some i) :
    ∀ j, j < i → ¬ pat <+: s.drop j := by
  induction s generalizing i with
  | nil =>
      simp only [strIndexOf?] at h
      split at h
      · cases h; omega
      · cases h
  | cons c t ih =>
      simp only [strIndexOf?] at h
      split at h
      · cases h; omega
      · rcases ho : strIndexOf? t pat with _ | k
        · rw [ho] at h; cases h
        · rw [ho] at h
          have h' : some (k + 1) = some i := h
          cases h'
          intro j hj
          match j with
          | 0 =>
              simp only [List.drop_zero]
              rw [← List.isPrefixOf_iff_prefix]
              simpa using ‹¬ pat.isPrefixOf (c :: t) = true›
          | j' + 1 =>
              simp only [List.drop_succ_cons]
              exact ih ho j' (by omega)

theorem strIndexOf_none {s pat : List Char}
    (h : strIndexOf? s pat = none) : ∀ j, ¬ pat <+: s.drop j := by
  induction s with
  | nil =>
      intro j
      simp only [strIndexOf?] at h
      split at h
      · cases h
      · rw [List.drop_nil, ← List.isPrefixOf_iff_prefix]
        simpa using ‹¬ pat.isPrefixOf ([] : List Char) = true›
  | cons c t ih =>
      intro j
      simp only [strIndexOf?] at h
      split at h
      · cases h
      · rcases ho : strIndexOf? t pat with _ | k
        · match j with
          | 0 =>
              simp only [List.drop_zero]
              rw [← List.isPrefixOf_iff_prefix]
              simpa using ‹¬ pat.isPrefixOf (c :: t) = true›
          | j' + 1 =>
              simp only [List.drop_succ_cons]
              exact ih ho j'
        · rw [ho] at h; simp at h

theorem strIndexOf_intro {s pat : List Char} {i : Nat}
    (hocc : pat <+: s.drop i) (hleast : ∀ j, j < i → ¬ pat <+: s.drop j) :
    strIndexOf? s pat = some i := by
  induction s generalizing i with
  | nil =>
      simp only [strIndexOf?]
      split
      · rename_i hp
        rw [ List.isPrefixOf_iff_prefix] at hp
        match i with
        | 0 => rfl
        | i' + 1 => exact absurd hp (hleast 0 (by omega))
      · rename_i hp
        rw [List.drop_nil] at hocc
        rw [ List.isPrefixOf_iff_prefix] at hp
        exact absurd hocc hp
  | cons c t ih =>
      simp only [strIndexOf?]
      split
      · rename_i hp
        rw [ List.isPrefixOf_iff_prefix] at hp
        match i with
        | 0 => rfl
        | i' + 1 => exact absurd hp (hleast 0 (by omega))
      · rename_i hp
        rw [ List.isPrefixOf_iff_prefix] at hp
        match i with
        | 0 => exact absurd (by simpa using hocc) hp
        | i' + 1 =>
            have := ih (by simpa using hocc)
              (fun j hj => by
                have := hleast (j + 1) (by omega)
                simpa using this)
            rw [this]
            rfl

theorem strIndexOf_le_length {s pat : List Char} {i : Nat}
    (h : strIndexOf? s pat = some i) : i ≤ s.length := by
  induction s generalizing i with
  | nil =>
      simp only [strIndexOf?] at h
      split at h
      · cases h; simp
      · cases h
  | cons c t ih =>
      simp only [strIndexOf?] at h
      split at h
      · cases h; simp
      · rcases ho : strIndexOf? t pat with _ | k
        · rw [ho] at h; cases h
        · rw [ho] at h
          have h' : some (k + 1) = some i := h
          cases h'
          have := ih ho
          simp only [List.length_cons]
          omega

theorem strIndexOf_some_bound {s pat : List Char} {i : Nat}
    (h : strIndexOf? s pat = some i) : i + pat.length ≤ s.length := by
  have hp := strIndexOf_some_occ h
  have h1 : pat.length ≤ (s.drop i).length := hp.length_le
  rw [List.length_drop] at h1
  have h2 := strIndexOf_le_length h
  omega

/-- The pattern occurs nowhere in `s` as a contiguous substring. -/
def NoOccur (pat s : List Char) : Prop := ∀ j, ¬ pat <+: s.drop j

theorem noOccur_iff {pat s : List Char} :
    NoOccur pat s ↔ strIndexOf? s pat = none := by
  constructor
  · intro h
    rcases ho : strIndexOf? s pat with _ | i
    · rfl
    · exact absurd (strIndexOf_some_occ ho) (h i)
  · intro h j
    exact strIndexOf_none h j

theorem prefixSplit {pat t u : List Char} (h : pat <+: t ++ u) :
    pat <+: t ∨ ∃ c, pat = t ++ c ∧ c <+: u := by
  obtain ⟨v, hv⟩ := h
  rcases List.append_eq_append_iff.mp hv with ⟨a, ha1, _⟩ | ⟨c, hc1, hc2⟩
  · exact Or.inl ⟨a, ha1.symm⟩
  · exact Or.inr ⟨c, hc1, ⟨v, hc2.symm⟩⟩

theorem prefixOfLeft {c x y : List Char} (h : c <+: x ++ y)
    (hle : c.length ≤ x.length) : c <+: x := by
  rcases prefixSplit h with h1 | ⟨d, hd1, _⟩
  · exact h1
  · have hlen := congrArg List.length hd1
    simp only [List.length_append] at hlen
    have hd : d = [] := List.eq_nil_of_length_eq_zero (by omega)
    subst hd
    have hcx : c = x := by simpa using hd1
    exact ⟨[], by simp [hcx]⟩

theorem prefixEqTake {c x : List Char} (h : c <+: x) : c = x.take c.length := by
  obtain ⟨v, hv⟩ := h
  rw [← hv]
  simp

theorem markOpen_length : markOpen.length = 6 := rfl

theorem markClose_length : markClose.length = 7 := rfl

theorem dropAppendLen {x y : List Char} {n : Nat} (hn : n = x.length) :
    (x ++ y).drop n = y := by subst hn; simp

theorem takeAppendLen {x y : List Char} {n : Nat} (hn : n = x.length) :
    (x ++ y).take n = x := by subst hn; simp

theorem markOpen_no_self_overlap :
    ∀ k, k < 6 → 0 < k → markOpen.drop k ≠ markOpen.take (6 - k) := by decide

theorem markClose_no_self_overlap :
    ∀ k, k < 7 → 0 < k → markClose.drop k ≠ markClose.take (7 - k) := by decide

theorem markClose_tail_ne_open_head :
    ∀ k, k < 7 → 0 < k → markClose.drop k ≠ markOpen.take (7 - k) := by decide

theorem markClose_head_ne_open_tail :
    ∀ m, m < 6 → markClose.take (6 - m) ≠ markOpen.drop m := by decide

/-- A cross-boundary occurrence of `markOpen` starting strictly inside `x`
is impossible when `x` itself is `markOpen`-free, so the first occurrence of
`markOpen` in `x ++ markOpen ++ r` is exactly at `x.length`. -/
theorem strIndexOf_markOpen_position {p r : List Char} (hp : NoOccur markOpen p) :
    strIndexOf? (p ++ (markOpen ++ r)) markOpen = some p.length := by
  apply strIndexOf_intro
  · rw [dropAppendLen rfl]
    exact ⟨r, rfl⟩
  · intro j hj hpre
    rw [List.drop_append_eq_append_drop] at hpre
    have hz : j - p.length = 0 := by omega
    rw [hz, List.drop_zero] at hpre
    rcases prefixSplit hpre with h1 | ⟨c, hc1, hc2⟩
    · exact hp j h1
    · have hdl : (p.drop j).length = p.length - j := List.length_drop j p
      have hlen := congrArg List.length hc1
      simp only [List.length_append, markOpen_length, hdl] at hlen
      set k := p.length - j with hk
      have hk1 : 0 < k := by omega
      by_cases hk6 : k = 6
      · have hc : c = [] := List.eq_nil_of_length_eq_zero (by omega)
        subst hc
        have : p.drop j = markOpen := by simpa using hc1.symm
        exact hp j ⟨[], by simp [this]⟩
      · have hcle : c.length ≤ markOpen.length := by rw [markOpen_length]; omega
        have hcm : c <+: markOpen := prefixOfLeft hc2 hcle
        have hctake : c = markOpen.take (6 - k) := by
          have := prefixEqTake hcm
          rw [this]
          congr 1
          omega
        have hdropk : markOpen.drop k = c := by
          rw [hc1]
          exact dropAppendLen (by omega)
        exact markOpen_no_self_overlap k (by omega) hk1 (hdropk.trans hctake)

/-- No occurrence of `markClose` anywhere in `p ++ markOpen ++ h` when `p`
and `h` are `markClose`-free: an occurrence cannot start in `p` (the
continuation would have to open with a character of `markOpen`), cannot
start inside `markOpen`, and cannot lie in `h`. -/
theorem noOccur_markClose_pre {p h : List Char} (hp : NoOccur markClose p)
    (hh : NoOccur markClose h) : NoOccur markClose (p ++ (markOpen ++ h)) := by
  intro j hpre
  rw [List.drop_append_eq_append_drop] at hpre
  by_cases hjp : j < p.length
  · have hz : j - p.length = 0 := by omega
    rw [hz, List.drop_zero] at hpre
    rcases prefixSplit hpre with h1 | ⟨c, hc1, hc2⟩
    · exact hp j h1
    · have hdl : (p.drop j).length = p.length - j := List.length_drop j p
      have hlen := congrArg List.length hc1
      simp only [List.length_append, markClose_length, hdl] at hlen
      set k := p.length - j with hk
      have hk1 : 0 < k := by omega
      by_cases hk7 : k = 7
      · have hc : c = [] := List.eq_nil_of_length_eq_zero (by omega)
        subst hc
        have : p.drop j = markClose := by simpa using hc1.symm
        exact hp j ⟨[], by simp [this]⟩
      · have hcle : c.length ≤ markOpen.length := by rw [markOpen_length]; omega
        have hcm : c <+: markOpen := prefixOfLeft hc2 hcle
        have hctake : c = markOpen.take (7 - k) := by
          have := prefixEqTake hcm
          rw [this]
          congr 1
          omega
        have hdropk : markClose.drop k = c := by
          rw [hc1]
          exact dropAppendLen (by omega)
        exact markClose_tail_ne_open_head k (by omega) hk1 (hdropk.trans hctake)
  · have hpj : p.drop j = [] := List.drop_eq_nil_of_le (by omega)
    rw [hpj, List.nil_append, List.drop_append_eq_append_drop] at hpre
    by_cases hjm : j - p.length < 6
    · set m := j - p.length with hm
      have hz : m - markOpen.length = 0 := by rw [markOpen_length]; omega
      rw [hz, List.drop_zero] at hpre
      rcases prefixSplit hpre with h1 | ⟨c, hc1, hc2⟩
      · have := h1.length_le
        rw [markClose_length, List.length_drop, markOpen_length] at this
        omega
      · have hlen := congrArg List.length hc1
        simp only [List.length_append, markClose_length, List.length_drop,
          markOpen_length] at hlen
        have htake : markClose.take (6 - m) = markOpen.drop m := by
          rw [hc1]
          exact takeAppendLen (by rw [List.length_drop, markOpen_length])
        exact markClose_head_ne_open_tail m hjm htake
    · have hmo : markOpen.drop (j - p.length) = [] :=
        List.drop_eq_nil_of_le (by rw [markOpen_length]; omega)
      rw [hmo, List.nil_append] at hpre
      exact hh (j - p.length - markOpen.length) hpre

/-- First occurrence of `markClose` in an assembled well-formed segment:
it sits immediately after the highlighted text. -/
theorem strIndexOf_markClose_position {p h r : List Char}
    (hp : NoOccur markClose p) (hh : NoOccur markClose h) :
    strIndexOf? (p ++ (markOpen ++ (h ++ (markClose ++ r)))) markClose
      = some (p.length + 6 + h.length) := by
  have hassoc : p ++ (markOpen ++ (h ++ (markClose ++ r)))
      = (p ++ (markOpen ++ h)) ++ (markClose ++ r) := by
    simp [List.append_assoc]
  rw [hassoc]
  have hprelen : (p ++ (markOpen ++ h)).length = p.length + 6 + h.length := by
    simp only [List.length_append, markOpen_length]
    omega
  apply strIndexOf_intro
  · rw [dropAppendLen hprelen.symm]
    exact ⟨r, rfl⟩
  · intro j hj hpre
    rw [List.drop_append_eq_append_drop] at hpre
    have hz : j - (p ++ (markOpen ++ h)).length = 0 := by omega
    rw [hz, List.drop_zero] at hpre
    rcases prefixSplit hpre with h1 | ⟨c, hc1, hc2⟩
    · exact noOccur_markClose_pre hp hh j h1
    · have hdl : ((p ++ (markOpen ++ h)).drop j).length
          = p.length + 6 + h.length - j := by
        rw [List.length_drop, hprelen]
      have hlen := congrArg List.length hc1
      simp only [List.length_append, markClose_length, hdl] at hlen
      set k := p.length + 6 + h.length - j with hk
      have hk1 : 0 < k := by omega
      by_cases hk7 : k = 7
      · have hc : c = [] := List.eq_nil_of_length_eq_zero (by omega)
        subst hc
        have heq : (p ++ (markOpen ++ h)).drop j = markClose := by
          simpa using hc1.symm
        exact noOccur_markClose_pre hp hh j ⟨[], by simp [heq]⟩
      · have hcle : c.length ≤ markClose.length := by rw [markClose_length]; omega
        have hcm : c <+: markClose := prefixOfLeft hc2 hcle
        have hctake : c = markClose.take (7 - k) := by
          have := prefixEqTake hcm
          rw [this]
          congr 1
          omega
        have hdropk : markClose.drop k = c := by
          rw [hc1]
          exact dropAppendLen (by omega)
        exact markClose_no_self_overlap k (by omega) hk1 (hdropk.trans hctake)

theorem strIndexOf_nil_markOpen : strIndexOf? [] markOpen = none := by decide

theorem strIndexOf_nil_markClose : strIndexOf? [] markClose = none := by decide

theorem renderLoop_nil (fuel : Nat) : renderLoop fuel [] = [] := by
  cases fuel with
  | zero => simp [renderLoop]
  | succ n =>
      simp [renderLoop, strIndexOf_nil_markOpen, strIndexOf_nil_markClose]

theorem renderLoop_succ_none (fuel : Nat) (c : List Char)
    (h : strIndexOf? c markOpen = none ∨ strIndexOf? c markClose = none) :
    renderLoop (fuel + 1) c = if c = [] then [] else [⟨c, false⟩] := by
  simp only [renderLoop]
  split
  · rename_i ms me hms hme
    rcases h with h | h
    · rw [h] at hms; cases hms
    · rw [h] at hme; cases hme
  · rfl

theorem renderLoop_succ_found (fuel : Nat) (c : List Char) (ms me : Nat)
    (ho : strIndexOf? c markOpen = some ms)
    (hc : strIndexOf? c markClose = some me) :
    renderLoop (fuel + 1) c
      = (if 0 < ms then [⟨c.take ms, false⟩] else [])
          ++ ⟨jsSubstring c (ms + 6) me, true⟩ ::
            renderLoop fuel (c.drop (me + 7)) := by
  simp only [renderLoop]
  split
  · rename_i ms' me' hms hme
    rw [ho] at hms
    rw [hc] at hme
    cases hms
    cases hme
    rfl
  · rename_i hcontra
    exact (hcontra ms me ho hc).elim

theorem renderLoop_congr : ∀ f₁ f₂ : Nat, ∀ c : List Char,
    c.length ≤ f₁ → c.length ≤ f₂ → renderLoop f₁ c = renderLoop f₂ c := by
  intro f₁
  induction f₁ with
  | zero =>
      intro f₂ c h1 _
      have hc : c = [] := List.eq_nil_of_length_eq_zero (by omega)
      subst hc
      rw [renderLoop_nil, renderLoop_nil]
  | succ n ih =>
      intro f₂ c h1 h2
      cases f₂ with
      | zero =>
          have hc : c = [] := List.eq_nil_of_length_eq_zero (by omega)
          subst hc
          rw [renderLoop_nil, renderLoop_nil]
      | succ m =>
          rcases ho : strIndexOf? c markOpen with _ | ms
          · rw [renderLoop_succ_none n c (Or.inl ho),
              renderLoop_succ_none m c (Or.inl ho)]
          · rcases hc : strIndexOf? c markClose with _ | me
            · rw [renderLoop_succ_none n c (Or.inr hc),
                renderLoop_succ_none m c (Or.inr hc)]
            · rw [renderLoop_succ_found n c ms me ho hc,
                renderLoop_succ_found m c ms me ho hc]
              have hb := strIndexOf_some_bound hc
              rw [markClose_length] at hb
              have hstep : renderLoop n (c.drop (me + 7))
                  = renderLoop m (c.drop (me + 7)) :=
                ih m (c.drop (me + 7))
                  (by rw [List.length_drop]; omega)
                  (by rw [List.length_drop]; omega)
              rw [hstep]

theorem render_found {c : List Char} {ms me : Nat}
    (ho : strIndexOf? c markOpen = some ms)
    (hc : strIndexOf? c markClose = some me) :
    renderHighlightedSnippet c
      = (if 0 < ms then [⟨c.take ms, false⟩] else [])
          ++ ⟨jsSubstring c (ms + 6) me, true⟩ ::
            renderHighlightedSnippet (c.drop (me + 7)) := by
  have hb := strIndexOf_some_bound hc
  rw [markClose_length] at hb
  unfold renderHighlightedSnippet
  obtain ⟨n, hn⟩ : ∃ n, c.length = n + 1 := ⟨c.length - 1, by omega⟩
  rw [hn, renderLoop_succ_found n c ms me ho hc,
    renderLoop_congr n (c.drop (me + 7)).length (c.drop (me + 7))
      (by rw [List.length_drop]; omega) (le_refl _)]

theorem render_not_found {c : List Char}
    (h : strIndexOf? c markOpen = none ∨ strIndexOf? c markClose = none) :
    renderHighlightedSnippet c = if c = [] then [] else [⟨c, false⟩] := by
  cases c with
  | nil => simp [renderHighlightedSnippet, renderLoop_nil]
  | cons a t =>
      unfold renderHighlightedSnippet
      rw [List.length_cons, renderLoop_succ_none t.length (a :: t) h]

/-- A component string containing neither marker literal, phrased through
the executable occurrence search. -/
def MarkerFree (s : List Char) : Prop :=
  strIndexOf? s markOpen = none ∧ strIndexOf? s markClose = none

instance (s : List Char) : Decidable (MarkerFree s) := by
  unfold MarkerFree
  infer_instance

/-- A snippet made of well-formed marker pairs: alternating marker-free
plain text and marker-free highlighted text wrapped in `<mark>` / `</mark>`,
followed by a marker-free remainder. -/
def assemble : List (List Char × List Char) → List Char → List Char
  | [], tail => tail
  | (p, h) :: rest, tail =>
      p ++ (markOpen ++ (h ++ (markClose ++ assemble rest tail)))

/-- The same interleaving with the marker literals removed: what the
well-formed snippet reads like once the markup is stripped. -/
def stripped : List (List Char × List Char) → List Char → List Char
  | [], tail => tail
  | (p, h) :: rest, tail => p ++ (h ++ stripped rest tail)

theorem segmentsText_render_assemble
    (pairs : List (List Char × List Char)) (tail : List Char)
    (hps : ∀ q ∈ pairs, MarkerFree q.1 ∧ MarkerFree q.2)
    (ht : MarkerFree tail) :
    segmentsText (renderHighlightedSnippet (assemble pairs tail))
      = stripped pairs tail := by
  induction pairs with
  | nil =>
      simp only [assemble, stripped]
      rw [render_not_found (Or.inl ht.1)]
      by_cases htl : tail = []
      · simp [htl, segmentsText]
      · simp [htl, segmentsText]
  | cons q rest ih =>
      obtain ⟨p, h⟩ := q
      have hq := hps (p, h) (List.mem_cons_self _ _)
      have hrest : ∀ r ∈ rest, MarkerFree r.1 ∧ MarkerFree r.2 :=
        fun r hr => hps r (List.mem_cons_of_mem _ hr)
      simp only [assemble, stripped]
      have hopen : NoOccur markOpen p := noOccur_iff.mpr hq.1.1
      have hpclose : NoOccur markClose p := noOccur_iff.mpr hq.1.2
      have hhclose : NoOccur markClose h := noOccur_iff.mpr hq.2.2
      have ho := strIndexOf_markOpen_position
        (r := h ++ (markClose ++ assemble rest tail)) hopen
      have hcpos := strIndexOf_markClose_position
        (r := assemble rest tail) hpclose hhclose
      rw [render_found ho hcpos]
      have htake : (p ++ (markOpen ++ (h ++ (markClose ++ assemble rest tail)))).take
          p.length = p := takeAppendLen rfl
      have hjs : jsSubstring
          (p ++ (markOpen ++ (h ++ (markClose ++ assemble rest tail))))
          (p.length + 6) (p.length + 6 + h.length) = h := by
        unfold jsSubstring
        have hmin : min (p.length + 6) (p.length + 6 + h.length)
            = p.length + 6 := by omega
        have hmax : max (p.length + 6) (p.length + 6 + h.length)
            = p.length + 6 + h.length := by omega
        rw [hmin, hmax]
        have hassoc : p ++ (markOpen ++ (h ++ (markClose ++ assemble rest tail)))
            = ((p ++ markOpen) ++ h) ++ (markClose ++ assemble rest tail) := by
          simp [List.append_assoc]
        rw [hassoc,
          takeAppendLen (by
            simp only [List.length_append, markOpen_length]),
          dropAppendLen (by
            simp only [List.length_append, markOpen_length])]
      have hdrop : (p ++ (markOpen ++ (h ++ (markClose ++ assemble rest tail)))).drop
          (p.length + 6 + h.length + 7) = assemble rest tail := by
        have hassoc : p ++ (markOpen ++ (h ++ (markClose ++ assemble rest tail)))
            = (p ++ (markOpen ++ (h ++ markClose))) ++ assemble rest tail := by
          simp [List.append_assoc]
        rw [hassoc]
        exact dropAppendLen (by
          simp only [List.length_append, markOpen_length, markClose_length]
          omega)
      rw [htake, hjs, hdrop, segmentsText_append, segmentsText_cons, ih hrest]
      by_cases hp0 : 0 < p.length
      · simp [hp0, segmentsText]
      · have hpnil : p = [] := List.eq_nil_of_length_eq_zero (by omega)
        simp [hp0, hpnil, segmentsText]

/-- C2, counterexample: for the snippet `a<mark>b</mark>c`, which contains
exactly one well-formed marker pair, concatenating the `.text` fields of the
parser's output yields `abc` — the marker literals are stripped — and not
the original snippet, so the claimed exact reconstruction fails. -/
theorem c2_counterexample :
    segmentsText (renderHighlightedSnippet ("a<mark>b</mark>c".data))
        = "abc".data
      ∧ segmentsText (renderHighlightedSnippet ("a<mark>b</mark>c".data))
        ≠ "a<mark>b</mark>c".data := by
  decide

/-- C2 (amended): for every snippet assembled from zero, one, or multiple
well-formed start-marker/end-marker pairs (marker-free plain text and
marker-free highlighted text, with a marker-free remainder), concatenating
the `.text` fields of the parser's output segments in order reconstructs
the snippet with the marker literals removed; in particular, with zero
pairs it reconstructs the snippet exactly. -/
theorem c2_theorem (pairs : List (List Char × List Char)) (tail : List Char)
    (hps : ∀ q ∈ pairs, MarkerFree q.1 ∧ MarkerFree q.2)
    (ht : MarkerFree tail) :
    segmentsText (renderHighlightedSnippet (assemble pairs tail))
      = stripped pairs tail :=
  segmentsText_render_assemble pairs tail hps ht

/-- Witness for C2 (amended) at the snippet `a<mark>b</mark>c`. -/
theorem c2_witness :
    segmentsText (renderHighlightedSnippet
        (assemble [("a".data, "b".data)] "c".data))
      = stripped [("a".data, "b".data)] "c".data :=
  c2_theorem [("a".data, "b".data)] "c".data
    (by
      intro q hq
      simp only [List.mem_singleton] at hq
      subst hq
      exact ⟨by decide, by decide⟩)
    (by decide)

/-- C4, counterexample: the input `a<mark>b</mark>c<mark>d` contains an
unmatched (dangling) start marker, yet the parser returns three segments —
it still extracts the preceding well-formed pair — rather than the single
non-highlighted segment equal to the whole input that the claim demands. -/
theorem c4_counterexample :
    renderHighlightedSnippet "a<mark>b</mark>c<mark>d".data
        = [⟨"a".data, false⟩, ⟨"b".data, true⟩, ⟨"c<mark>d".data, false⟩]
      ∧ renderHighlightedSnippet "a<mark>b</mark>c<mark>d".data
        ≠ [⟨"a<mark>b</mark>c<mark>d".data, false⟩] := by
  decide

/-- C4 (amended): for every input string containing an unmatched marker and
no complete pair — it contains one of the two marker literals but lacks the
other, covering in particular any dangling start-marker literal — the
parser returns a single non-highlighted segment equal to the original
input; totality of the model reflects that the parser cannot throw. -/
theorem c4_theorem (s : List Char)
    (h : (strIndexOf? s markOpen).isSome ∧ strIndexOf? s markClose = none
       ∨ (strIndexOf? s markClose).isSome ∧ strIndexOf? s markOpen = none) :
    renderHighlightedSnippet s = [⟨s, false⟩] := by
  have hne : s ≠ [] := by
    rintro rfl
    rcases h with ⟨h1, _⟩ | ⟨h1, _⟩
    · rw [strIndexOf_nil_markOpen] at h1
      simp at h1
    · rw [strIndexOf_nil_markClose] at h1
      simp at h1
  have hor : strIndexOf? s markOpen = none ∨ strIndexOf? s markClose = none := by
    rcases h with ⟨_, h2⟩ | ⟨_, h2⟩
    · exact Or.inr h2
    · exact Or.inl h2
  rw [render_not_found hor]
  simp [hne]

/-- Witness for C4 (amended) at the input `x<mark>y`. -/
theorem c4_witness :
    renderHighlightedSnippet "x<mark>y".data
      = [⟨"x<mark>y".data, false⟩] :=
  c4_theorem "x<mark>y".data (by decide)

end Highlight

namespace RagStream

/-- A citation as declared in the frontend type file (types.ts): the field
names mirror the source, including its mixed `document_id` naming. -/
structure Citation where
  document_id : String
  filename : String
  marker : String
  pageNumber : Option Nat
  text : String
deriving DecidableEq, Repr

/-- A parsed stream chunk: the JSON object fields that `handleMessage`
reads (`chunk.type`, `chunk.content`, `chunk.citations`). -/
structure Chunk where
  type : String
  content : String
  citations : List Citation
deriving DecidableEq, Repr

/-- Observable state of one streaming RAG session on the search page: the
React state the handlers set (`ragLoading`, `streamingAnswer`,
`streamingCitations`), the connection and listener status of the
`EventSource`, and the observable error surfacing calls (`toast.error`
messages and `console.error` occurrences). -/
structure SessionState where
  ragLoading : Bool
  streamingAnswer : String
  streamingCitations : List Citation
  connOpen : Bool
  closeCount : Nat
  listenersAttached : Bool
  toastErrors : List String
  consoleErrors : Nat
deriving DecidableEq, Repr

/-- The `closeStream` closure of `handleRagQuery`: invokes `close()` on the
event source and removes both event listeners. -/
def closeStream (s : SessionState) : SessionState :=
  { s with
    connOpen := false
    closeCount := s.closeCount + 1
    listenersAttached := false }

/-- Session state right after the streaming branch of `handleRagQuery` has
opened the `EventSource` and attached its listeners: loading is on and the
accumulation targets were reset. -/
def freshSession : SessionState :=
  { ragLoading := true
    streamingAnswer := ""
    streamingCitations := []
    connOpen := true
    closeCount := 0
    listenersAttached := true
    toastErrors := []
    consoleErrors := 0 }

/-- The `handleMessage` listener of the streaming branch of
`handleRagQuery`, parametrised by the JSON parser: the sentinel comparison
comes first, a parse failure (the `catch` block) logs and closes, and a
parsed chunk clears the loading flag and dispatches on its `type` field;
a chunk whose type matches no branch falls through. -/
def handleMessage (parse : String → Option Chunk) (data : String)
    (s : SessionState) : SessionState :=
  if data = "[DONE]" then
    closeStream { s with ragLoading := false }
  else
    match parse data with
    | none => closeStream { s with consoleErrors := s.consoleErrors + 1 }
    | some chunk =>
        let s1 := { s with ragLoading := false }
        if chunk.type = "answer" then
          { s1 with streamingAnswer := s1.streamingAnswer ++ chunk.content }
        else if chunk.type = "citations" then
          { s1 with
            streamingAnswer := chunk.content
            streamingCitations := chunk.citations }
        else if chunk.type = "error" then
          closeStream { s1 with toastErrors := s1.toastErrors ++ [chunk.content] }
        else s1

/-- Delivery of one server-sent event: the listener runs only while it is
still attached — after `closeStream` removed it, queued events no longer
fold into the state. -/
def deliver (parse : String → Option Chunk) (s : SessionState)
    (data : String) : SessionState :=
  if s.listenersAttached then handleMessage parse data s else s

/-- Folding a sequence of server-sent events, in arrival order. -/
def foldEvents (parse : String → Option Chunk) (s : SessionState)
    (events : List String) : SessionState :=
  events.foldl (deliver parse) s

/-- The specification's session phases. -/
inductive Phase
  | idle
  | connecting
  | streaming
  | completed
  | failed
  | cancelled
deriving DecidableEq, Repr

/-- Abstraction from the page's observable state to the specification's
phase enum, for the states reachable by the in-stream handler: while the
connection is open the session is Connecting until the first chunk clears
the loading flag, then Streaming; once the handler has closed the
connection it is Failed when an error was surfaced (an error toast or a
logged protocol error) and Completed otherwise. -/
def phase (s : SessionState) : Phase :=
  if s.connOpen then
    if s.ragLoading then Phase.connecting else Phase.streaming
  else if s.toastErrors ≠ [] ∨ s.consoleErrors ≠ 0 then Phase.failed
  else Phase.completed

/-- A concrete citation used in closed instances. -/
def cit1 : Citation :=
  { document_id := "doc-1"
    filename := "file.pdf"
    marker := "[1]"
    pageNumber := some 1
    text := "source text" }

/-- A concrete event parser used in closed instances: a lookup table
standing for `JSON.parse` plus field access on the event payloads of one
session. -/
def parseC1 : String → Option Chunk
  | "e1" => some { type := "answer", content := "Hello", citations := [] }
  | "e2" => some { type := "answer", content := " world", citations := [] }
  | "e3" => some { type := "citations", content := "", citations := [cit1] }
  | _ => none

/-- C1, counterexample: feeding a fresh session answer-delta("Hello"),
answer-delta(" world"), a citations event carrying the single citation
`cit1`, then the end-of-stream sentinel, yields the claimed citation list
and Completed phase — but the accumulated answer is the citations event's
`content` field (here empty), not "Hello world": the handler wholesale
replaces the answer on a citations event. -/
theorem c1_counterexample :
    (foldEvents parseC1 freshSession ["e1", "e2", "e3", "[DONE]"]).streamingCitations
        = [cit1]
      ∧ phase (foldEvents parseC1 freshSession ["e1", "e2", "e3", "[DONE]"])
        = Phase.completed
      ∧ (foldEvents parseC1 freshSession ["e1", "e2", "e3", "[DONE]"]).streamingAnswer
        ≠ "Hello world"
      ∧ (foldEvents parseC1 freshSession ["e1", "e2", "e3", "[DONE]"]).streamingAnswer
        = "" := by
  decide

/-- C1 (amended): for the event sequence answer-delta("Hello"),
answer-delta(" world"), citations event with content `ct` and citation
list `[c]`, then the end-of-stream sentinel, folded from a fresh session:
after the two deltas the accumulated answer is "Hello world"; the final
state has accumulated answer equal to `ct` — the citations handler
replaces the answer with the event's content field — a citation list of
length 1 equal to `[c]`, and phase Completed. -/
theorem c1_theorem (parse : String → Option Chunk) (r1 r2 r3 ct : String)
    (c : Citation)
    (h1 : r1 ≠ "[DONE]")
    (hp1 : parse r1 = some { type := "answer", content := "Hello", citations := [] })
    (h2 : r2 ≠ "[DONE]")
    (hp2 : parse r2 = some { type := "answer", content := " world", citations := [] })
    (h3 : r3 ≠ "[DONE]")
    (hp3 : parse r3 = some { type := "citations", content := ct, citations := [c] }) :
    (foldEvents parse freshSession [r1, r2]).streamingAnswer = "Hello world"
      ∧ (foldEvents parse freshSession [r1, r2, r3, "[DONE]"]).streamingAnswer = ct
      ∧ (foldEvents parse freshSession [r1, r2, r3, "[DONE]"]).streamingCitations = [c]
      ∧ phase (foldEvents parse freshSession [r1, r2, r3, "[DONE]"])
        = Phase.completed := by
  refine ⟨?_, ?_, ?_, ?_⟩ <;>
    simp [foldEvents, deliver, handleMessage, freshSession, closeStream, phase,
      h1, h2, h3, hp1, hp2, hp3]

/-- Witness for C1 (amended) at the concrete parser `parseC1`. -/
theorem c1_witness :
    (foldEvents parseC1 freshSession ["e1", "e2"]).streamingAnswer = "Hello world"
      ∧ (foldEvents parseC1 freshSession ["e1", "e2", "e3", "[DONE]"]).streamingAnswer = ""
      ∧ (foldEvents parseC1 freshSession ["e1", "e2", "e3", "[DONE]"]).streamingCitations
        = [cit1]
      ∧ phase (foldEvents parseC1 freshSession ["e1", "e2", "e3", "[DONE]"])
        = Phase.completed :=
  c1_theorem parseC1 "e1" "e2" "e3" "" cit1
    (by decide) rfl (by decide) rfl (by decide) rfl

/-- A concrete event parser whose payload `"u"` parses as valid JSON with
an unrecognised `type` field, and whose other payloads fail to parse. -/
def parseC7 : String → Option Chunk
  | "u" => some { type := "weird", content := "x", citations := [] }
  | _ => none

/-- C7, counterexample: the event `"u"` is not the sentinel and parses as
JSON whose type matches none of the defined event types, yet after
handling it the connection is still open, `close()` was never invoked and
the session phase is Streaming, not Failed — the handler silently ignores
unrecognised chunk types instead of treating them as protocol errors. -/
theorem c7_counterexample :
    (handleMessage parseC7 "u" freshSession).connOpen = true
      ∧ (handleMessage parseC7 "u" freshSession).closeCount = 0
      ∧ phase (handleMessage parseC7 "u" freshSession) = Phase.streaming := by
  decide

/-- C7 (amended): the end-of-stream sentinel is compared before any
parsing — on the sentinel the handler's result does not depend on the
parser at all; every non-sentinel event whose payload fails JSON parsing
makes the handler log the error and close the connection, yielding phase
Failed, without the parse exception propagating (the handler stays a total
function); but an event that parses as JSON with an unrecognised type is
silently ignored apart from clearing the loading flag — the connection
stays open and no failure is recorded. -/
theorem c7_theorem :
    (∀ (p₁ p₂ : String → Option Chunk) (s : SessionState),
        handleMessage p₁ "[DONE]" s = handleMessage p₂ "[DONE]" s)
      ∧ (∀ (p : String → Option Chunk) (s : SessionState) (raw : String),
          raw ≠ "[DONE]" → p raw = none →
            handleMessage p raw s
                = closeStream { s with consoleErrors := s.consoleErrors + 1 }
              ∧ (handleMessage p raw s).connOpen = false
              ∧ phase (handleMessage p raw s) = Phase.failed)
      ∧ (∀ (p : String → Option Chunk) (s : SessionState) (raw : String)
          (c : Chunk),
          raw ≠ "[DONE]" → p raw = some c →
          c.type ≠ "answer" → c.type ≠ "citations" → c.type ≠ "error" →
            handleMessage p raw s = { s with ragLoading := false }) := by
  refine ⟨fun p₁ p₂ s => by simp [handleMessage], ?_, ?_⟩
  · intro p s raw hraw hp
    refine ⟨by simp [handleMessage, hraw, hp], ?_, ?_⟩
    · simp [handleMessage, hraw, hp, closeStream]
    · simp [handleMessage, hraw, hp, closeStream, phase]
  · intro p s raw c hraw hp ha hc he
    simp [handleMessage, hraw, hp, ha, hc, he]

/-- Witness for C7 (amended): the sentinel result is parser independent,
a failing payload `"zz"` yields Failed with the connection closed, and the
unrecognised chunk `"u"` only clears the loading flag. -/
theorem c7_witness :
    handleMessage parseC7 "[DONE]" freshSession
        = handleMessage parseC1 "[DONE]" freshSession
      ∧ (handleMessage parseC7 "zz" freshSession).connOpen = false
      ∧ phase (handleMessage parseC7 "zz" freshSession) = Phase.failed
      ∧ handleMessage parseC7 "u" freshSession
        = { freshSession with ragLoading := false } :=
  ⟨c7_theorem.1 parseC7 parseC1 freshSession,
    (c7_theorem.2.1 parseC7 freshSession "zz" (by decide) rfl).2.1,
    (c7_theorem.2.1 parseC7 freshSession "zz" (by decide) rfl).2.2,
    c7_theorem.2.2 parseC7 freshSession "u"
      { type := "weird", content := "x", citations := [] }
      (by decide) rfl (by decide) (by decide) (by decide)⟩

/-- A concrete event parser for the failure scenario: a partial answer
delta followed by a backend error event. -/
def parseC8 : String → Option Chunk
  | "d1" => some { type := "answer", content := "partial", citations := [] }
  | "d2" => some { type := "error", content := "backend failure", citations := [] }
  | _ => none

/-- C8: folding answer-delta("partial") then error("backend failure") from
a fresh session yields phase Failed while the partially accumulated answer
"partial" is kept (not cleared), the error message is surfaced, and the
connection was closed exactly once. -/
theorem c8_theorem (parse : String → Option Chunk) (r1 r2 : String)
    (h1 : r1 ≠ "[DONE]")
    (hp1 : parse r1 = some { type := "answer", content := "partial", citations := [] })
    (h2 : r2 ≠ "[DONE]")
    (hp2 : parse r2 = some { type := "error", content := "backend failure", citations := [] }) :
    phase (foldEvents parse freshSession [r1, r2]) = Phase.failed
      ∧ (foldEvents parse freshSession [r1, r2]).streamingAnswer = "partial"
      ∧ (foldEvents parse freshSession [r1, r2]).connOpen = false
      ∧ (foldEvents parse freshSession [r1, r2]).closeCount = 1
      ∧ (foldEvents parse freshSession [r1, r2]).toastErrors = ["backend failure"] := by
  refine ⟨?_, ?_, ?_, ?_, ?_⟩ <;>
    simp [foldEvents, deliver, handleMessage, freshSession, closeStream, phase,
      h1, h2, hp1, hp2]

/-- Witness for C8 at the concrete parser `parseC8`. -/
theorem c8_witness :
    phase (foldEvents parseC8 freshSession ["d1", "d2"]) = Phase.failed
      ∧ (foldEvents parseC8 freshSession ["d1", "d2"]).streamingAnswer = "partial"
      ∧ (foldEvents parseC8 freshSession ["d1", "d2"]).connOpen = false
      ∧ (foldEvents parseC8 freshSession ["d1", "d2"]).closeCount = 1
      ∧ (foldEvents parseC8 freshSession ["d1", "d2"]).toastErrors
        = ["backend failure"] :=
  c8_theorem parseC8 "d1" "d2" (by decide) rfl (by decide) rfl

end RagStream

namespace SearchCtl

/-- A search result item as declared in the frontend type file. -/
structure SearchResult where
  documentId : String
  filename : String
  pageNumber : Option Nat
  text : String
  textHighlight : Option (List String)
  score : Float

/-- The search response shape stored by the page. -/
structure SearchResponse where
  results : List SearchResult
  total : Nat
  count : String
  query : String
  searchType : String

/-- The `searchParams` React state of the search page. -/
structure SearchParams where
  query : String
  searchType : String
  documentIds : Option (List String)
deriving DecidableEq, Repr

/-- The POST body assembled by the `search` API wrapper in lib/search.ts. -/
structure SearchRequest where
  query : String
  searchType : String
  documentIds : Option (List String)
  page : Nat
  pageSize : Nat
  includeHighlight : Bool
deriving DecidableEq, Repr

/-- lib/search.ts `search`: builds the request body sent to `/search` from
its six arguments. -/
def searchRequestBody (query searchType : String)
    (documentIds : Option (List String)) (page pageSize : Nat)
    (includeHighlight : Bool) : SearchRequest :=
  { query := query
    searchType := searchType
    documentIds := documentIds
    page := page
    pageSize := pageSize
    includeHighlight := includeHighlight }

/-- Search-related React state of the search page component. -/
structure PageState where
  searchParams : SearchParams
  page : Nat
  pageSize : Nat
  includeHighlight : Bool
  searchResponse : Option SearchResponse
  searchLoading : Bool
  paginationLoading : Bool

/-- The `useState` initial values of the search page. -/
def initialState : PageState :=
  { searchParams := { query := "", searchType := "hybrid", documentIds := none }
    page := 1
    pageSize := 10
    includeHighlight := true
    searchResponse := none
    searchLoading := false
    paginationLoading := false }

/-- The synchronous part of `handleSearch` up to the `await`: it turns on
the loading flag, stores the submitted parameters, and issues the remote
request built from the submitted arguments together with the currently
stored `page`, `pageSize` and `includeHighlight` state. -/
def handleSearchBegin (query searchType : String)
    (documentIds : Option (List String)) (s : PageState) :
    PageState × SearchRequest :=
  ({ s with
      searchLoading := true
      searchParams :=
        { query := query, searchType := searchType, documentIds := documentIds } },
    searchRequestBody query searchType documentIds s.page s.pageSize
      s.includeHighlight)

/-- Resumption of `handleSearch` when the remote call resolves: the
response is stored and the loading flag cleared. -/
def handleSearchSuccess (resp : SearchResponse) (s : PageState) : PageState :=
  { s with searchResponse := some resp, searchLoading := false }

/-- Resumption of `handleSearch` when the remote call rejects: the `catch`
block only surfaces a toast; no stored state is restored or cleared apart
from the loading flag. -/
def handleSearchFailure (s : PageState) : PageState :=
  { s with searchLoading := false }

/-- The synchronous part of `handlePaginatedSearch` up to the `await`:
re-issues the remote search from the stored parameters with the requested
page number. -/
def handlePaginatedBegin (pageNumber : Nat) (s : PageState) :
    PageState × SearchRequest :=
  ({ s with paginationLoading := true },
    searchRequestBody s.searchParams.query s.searchParams.searchType
      s.searchParams.documentIds pageNumber s.pageSize s.includeHighlight)

/-- Resumption of `handlePaginatedSearch` on success. -/
def handlePaginatedSuccess (resp : SearchResponse) (s : PageState) : PageState :=
  { s with searchResponse := some resp, paginationLoading := false }

/-- `handlePageChange`: stores the new page number and immediately starts
the paginated search for it. -/
def handlePageChange (newPage : Nat) (s : PageState) : PageState × SearchRequest :=
  handlePaginatedBegin newPage { s with page := newPage }

/-- Outcome of invoking the pagination operation: either a remote request
is issued or the operation fails before any request, the failure vocabulary
the specification uses (`InvalidStateError`); the code's
`handlePaginatedSearch` performs no such precondition check, so the model
shows it never produces the failure outcome. -/
inductive PaginateOutcome
  | issued (r : SearchRequest)
  | invalidState
deriving DecidableEq, Repr

/-- What `handlePaginatedSearch` does when invoked: it unconditionally
issues the request built from the stored parameters. -/
def goToPageOutcome (pageNumber : Nat) (s : PageState) : PaginateOutcome :=
  PaginateOutcome.issued (handlePaginatedBegin pageNumber s).2

/-- A stored response for the first submission in concrete scenarios. -/
def respQ1 : SearchResponse :=
  { results := [], total := 45, count := "10", query := "q1", searchType := "hybrid" }

/-- A stored response for the second submission in concrete scenarios. -/
def respQ2 : SearchResponse :=
  { results := [], total := 7, count := "7", query := "q2", searchType := "hybrid" }

/-- A page state in which the user has searched successfully and navigated
to page 3: the stored page value is 3. -/
def stalePageState : PageState :=
  (handlePageChange 3
    (handleSearchSuccess respQ1
      (handleSearchBegin "q1" "hybrid" none initialState).1)).1

/-- C3, counterexample: submitting a new search from a state whose stored
page is 3 (reached by a successful search followed by navigating to page
3) issues the remote request with `page = 3`, not `page = 1`: `handleSearch`
forwards the stored page value instead of resetting it. -/
theorem c3_counterexample :
    (handleSearchBegin "new query" "hybrid" none stalePageState).2
        = searchRequestBody "new query" "hybrid" none 3 10 true
      ∧ (handleSearchBegin "new query" "hybrid" none stalePageState).2.page ≠ 1 := by
  decide

/-- C3 (amended): a new search submission issues the remote request with
the currently stored page value (1 only while no page navigation has
happened), page size and highlight flag, together with the submitted
query, mode and filter; the submitted parameters are stored as current
immediately, and on success the returned result page is stored as well. -/
theorem c3_theorem (s : PageState) (q st : String)
    (ids : Option (List String)) (resp : SearchResponse) :
    (handleSearchBegin q st ids s).2
        = searchRequestBody q st ids s.page s.pageSize s.includeHighlight
      ∧ (handleSearchBegin q st ids s).1.searchParams
        = { query := q, searchType := st, documentIds := ids }
      ∧ (handleSearchSuccess resp (handleSearchBegin q st ids s).1).searchParams
        = { query := q, searchType := st, documentIds := ids }
      ∧ (handleSearchSuccess resp (handleSearchBegin q st ids s).1).searchResponse
        = some resp :=
  ⟨rfl, rfl, rfl, rfl⟩

/-- Applying search responses to the page state in their arrival order:
each resolution of the `await` stores its own response. -/
def applyArrivals (s : PageState) (rs : List SearchResponse) : PageState :=
  rs.foldl (fun t r => handleSearchSuccess r t) s

/-- The state after two overlapping submissions (q1 then q2) whose
responses arrive in reverse order: q2's response first, then q1's. -/
def c6state : PageState :=
  applyArrivals
    ((handleSearchBegin "q2" "hybrid" none
      (handleSearchBegin "q1" "hybrid" none initialState).1).1)
    [respQ2, respQ1]

/-- C6, counterexample: with two overlapping submissions, when the earlier
submission's response arrives last it is the one reflected in the stored
current page — there is no request sequence number guarding stale
responses, so the lower-sequence (first) call's result ends up displayed
even though the stored parameters are the second call's. -/
theorem c6_counterexample :
    c6state.searchResponse = some respQ1
      ∧ c6state.searchParams.query = "q2"
      ∧ respQ1 ≠ respQ2 :=
  ⟨rfl, rfl, by
    intro h
    exact absurd (congrArg SearchResponse.total h) (by decide)⟩

/-- C6 (amended): responses are applied in arrival order with no sequence
number check, so the stored current page is always the response that
arrived last — which may belong to the earlier submission. -/
theorem c6_theorem (s : PageState) (rs : List SearchResponse)
    (r : SearchResponse) (h : rs.getLast? = some r) :
    (applyArrivals s rs).searchResponse = some r := by
  induction rs generalizing s with
  | nil => cases h
  | cons a t ih =>
      cases t with
      | nil =>
          have : a = r := by
            simpa [List.getLast?] using h
          subst this
          rfl
      | cons b u =>
          have hlast : (b :: u).getLast? = some r := by
            simpa [List.getLast?_cons_cons] using h
          exact ih (handleSearchSuccess a s) hlast

/-- Witness for C6 (amended): the reversed arrival order of the concrete
scenario stores the last-arriving response `respQ1`. -/
theorem c6_witness :
    (applyArrivals initialState [respQ2, respQ1]).searchResponse = some respQ1 :=
  c6_theorem initialState [respQ2, respQ1] respQ1 rfl

/-- C9, counterexample: invoking the pagination operation on the initial
state — before any search has been submitted, let alone succeeded — does
not fail with `InvalidStateError`; it issues a remote search with the
initial stored parameters (the empty query) and the requested page. -/
theorem c9_counterexample :
    goToPageOutcome 2 initialState
        = PaginateOutcome.issued (searchRequestBody "" "hybrid" none 2 10 true)
      ∧ goToPageOutcome 2 initialState ≠ PaginateOutcome.invalidState := by
  decide

/-- C9 (amended): the pagination operation performs no prior-success
precondition check at all: from every state, including any state where no
search has succeeded, it issues the remote request built from the stored
parameters and the requested page number, and never fails with
`InvalidStateError`. -/
theorem c9_theorem (s : PageState) (n : Nat) :
    goToPageOutcome n s
        = PaginateOutcome.issued
          (searchRequestBody s.searchParams.query s.searchParams.searchType
            s.searchParams.documentIds n s.pageSize s.includeHighlight)
      ∧ goToPageOutcome n s ≠ PaginateOutcome.invalidState :=
  ⟨rfl, by intro h; cases h⟩

/-- C10: a search submission replaces the stored parameters before the
remote call resolves; a failed call does not restore them and does not
touch the stored result page, so a subsequent pagination re-queries with
the failed submission's parameters while the displayed results are still
those of the last successful search. -/
theorem c10_theorem (s : PageState) (q st : String)
    (ids : Option (List String)) (n : Nat) :
    (handleSearchBegin q st ids s).1.searchParams
        = { query := q, searchType := st, documentIds := ids }
      ∧ (handleSearchFailure (handleSearchBegin q st ids s).1).searchParams
        = { query := q, searchType := st, documentIds := ids }
      ∧ (handleSearchFailure (handleSearchBegin q st ids s).1).searchResponse
        = s.searchResponse
      ∧ (handlePaginatedBegin n
          (handleSearchFailure (handleSearchBegin q st ids s).1)).2
        = searchRequestBody q st ids n s.pageSize s.includeHighlight :=
  ⟨rfl, rfl, rfl, rfl⟩

end SearchCtl

namespace RagSession

/-- One `EventSource` connection: how often `close()` has been invoked on
it and whether its message and error listeners are attached. -/
structure StreamConn where
  closeCount : Nat
  msgListener : Bool
  errListener : Bool
deriving DecidableEq, Repr

/-- State of the page across streaming submissions: every connection ever
opened, in open order, and `streamCleanupRef` as an index into that list
(null when no cleanup is pending). -/
structure OrchState where
  conns : List StreamConn
  cleanupRef : Option Nat
deriving DecidableEq, Repr

/-- Updates the element at an index, leaving other positions unchanged. -/
def modifyAt (f : StreamConn → StreamConn) : Nat → List StreamConn → List StreamConn
  | _, [] => []
  | 0, c :: t => f c :: t
  | n + 1, c :: t => c :: modifyAt f n t

/-- Effect of the `closeStream` closure on its captured connection:
`close()` is invoked and both listeners are removed. -/
def closeConn (c : StreamConn) : StreamConn :=
  { closeCount := c.closeCount + 1, msgListener := false, errListener := false }

/-- The `closeStream` closure of the session at index `i`: closes that
connection, detaches its listeners and nulls `streamCleanupRef`. -/
def closeStreamAt (i : Nat) (s : OrchState) : OrchState :=
  { conns := modifyAt closeConn i s.conns, cleanupRef := none }

/-- The teardown at the top of `handleRagQuery`: if a cleanup function is
stored, it is invoked (and the ref nulled) before anything else happens. -/
def teardownExisting (s : OrchState) : OrchState :=
  match s.cleanupRef with
  | some i => closeStreamAt i s
  | none => s

/-- Opening the new `EventSource` of the streaming branch and attaching
its listeners; the cleanup ref now points at the new connection. -/
def openNewConn (s : OrchState) : OrchState :=
  { conns := s.conns ++ [{ closeCount := 0, msgListener := true, errListener := true }]
    cleanupRef := some s.conns.length }

/-- The streaming branch of `handleRagQuery`: teardown of any existing
session strictly before the new connection is opened. -/
def startStreaming (s : OrchState) : OrchState :=
  openNewConn (teardownExisting s)

/-- The page state before any streaming query. -/
def initOrch : OrchState :=
  { conns := [], cleanupRef := none }

theorem modifyAt_length (f : StreamConn → StreamConn) :
    ∀ (n : Nat) (l : List StreamConn), (modifyAt f n l).length = l.length := by
  intro n
  induction n with
  | zero => intro l; cases l <;> simp [modifyAt]
  | succ m ih => intro l; cases l <;> simp [modifyAt, ih]

theorem modifyAt_getElem? (f : StreamConn → StreamConn) :
    ∀ (n : Nat) (l : List StreamConn), (modifyAt f n l)[n]? = (l[n]?).map f := by
  intro n
  induction n with
  | zero => intro l; cases l <;> simp [modifyAt]
  | succ m ih => intro l; cases l <;> simp [modifyAt, ih]

/-- C5: starting a new streaming session while a previous one is live (its
cleanup ref is stored and its connection not yet closed) first invokes the
previous connection's `close()` exactly once and detaches both of its
listeners, while no new connection exists yet; only then is the new
connection opened — the old connection stays closed-once and detached, one
new connection is appended, and the cleanup ref moves to it. -/
theorem c5_theorem (s : OrchState) (i : Nat) (cOld : StreamConn)
    (href : s.cleanupRef = some i)
    (hconn : s.conns[i]? = some cOld)
    (hlive : cOld.closeCount = 0) :
    (teardownExisting s).conns[i]?
        = some { closeCount := 1, msgListener := false, errListener := false }
      ∧ (teardownExisting s).conns.length = s.conns.length
      ∧ (teardownExisting s).cleanupRef = none
      ∧ (startStreaming s).conns[i]?
        = some { closeCount := 1, msgListener := false, errListener := false }
      ∧ (startStreaming s).conns.length = s.conns.length + 1
      ∧ (startStreaming s).cleanupRef = some s.conns.length := by
  have hi : i < s.conns.length := by
    rcases List.getElem?_eq_some.mp hconn with ⟨h, _⟩
    exact h
  have htd : teardownExisting s = closeStreamAt i s := by
    unfold teardownExisting
    rw [href]
  have hclosed : (teardownExisting s).conns[i]?
      = some { closeCount := 1, msgListener := false, errListener := false } := by
    rw [htd]
    unfold closeStreamAt
    simp only [modifyAt_getElem?, hconn, Option.map_some']
    rw [show closeConn cOld
        = { closeCount := 1, msgListener := false, errListener := false } by
      unfold closeConn
      rw [hlive]]
  have hlen : (teardownExisting s).conns.length = s.conns.length := by
    rw [htd]
    unfold closeStreamAt
    simp [modifyAt_length]
  refine ⟨hclosed, hlen, by rw [htd]; rfl, ?_, ?_, ?_⟩
  · unfold startStreaming openNewConn
    rw [List.getElem?_append,
      if_pos (show i < (teardownExisting s).conns.length by rw [hlen]; exact hi)]
    exact hclosed
  · unfold startStreaming openNewConn
    simp [hlen]
  · unfold startStreaming openNewConn
    simp [hlen]

/-- Witness for C5: from a fresh page, start one streaming session, then
start a second one while the first is live. -/
theorem c5_witness :
    (teardownExisting (startStreaming initOrch)).conns[0]?
        = some { closeCount := 1, msgListener := false, errListener := false }
      ∧ (teardownExisting (startStreaming initOrch)).conns.length
        = (startStreaming initOrch).conns.length
      ∧ (teardownExisting (startStreaming initOrch)).cleanupRef = none
      ∧ (startStreaming (startStreaming initOrch)).conns[0]?
        = some { closeCount := 1, msgListener := false, errListener := false }
      ∧ (startStreaming (startStreaming initOrch)).conns.length
        = (startStreaming initOrch).conns.length + 1
      ∧ (startStreaming (startStreaming initOrch)).cleanupRef
        = some (startStreaming initOrch).conns.length :=
  c5_theorem (startStreaming initOrch) 0
    { closeCount := 0, msgListener := true, errListener := true }
    rfl rfl rfl

end RagSession
